import Mathlib

/-!
Verification development for a one-directional local-to-Drive directory
synchronizer (src/main.py).  The remote object store is modelled as a list
of entries with a fresh-id counter; the local filesystem is a finite tree
of named entries; the provider's MD5 digest is an abstract parameter
`hexdigest : List Nat → String`, with hashlib's incremental accumulator
modelled by the byte sequence fed to it.
-/

set_option maxHeartbeats 1000000

/-- A local filesystem entry as seen by `os.listdir` plus the
`os.path.isdir` / `os.path.isfile` checks: a regular file with its byte
content, a directory with its listing, or anything else (e.g. a broken
symlink), which matches neither check. -/
inductive Entry where
  | file : String → List Nat → Entry
  | dir : String → List Entry → Entry
  | other : String → Entry
deriving Repr

/-- An opaque Drive id: either an externally supplied string (e.g. the id
extracted from a folder URL) or an id newly assigned by the remote store. -/
inductive FileId where
  | ext : String → FileId
  | gen : Nat → FileId
deriving DecidableEq, Repr

/-- One entry of the remote store: id, name, parent id, whether it is a
folder (mimeType application/vnd.google-apps.folder), and the provider
computed md5Checksum (absent for folders). -/
structure DriveEntry where
  id : FileId
  name : String
  parent : FileId
  isFolder : Bool
  md5Checksum : Option String
deriving DecidableEq, Repr

/-- The remote store: its entries in creation order plus the counter from
which newly assigned ids are drawn. -/
structure Drive where
  entries : List DriveEntry
  nextId : Nat
deriving DecidableEq, Repr

/-- One tqdm progress bar: the `total` it was created with and the number
of `update(1)` calls it received. -/
structure Bar where
  total : Nat
  advanced : Nat
deriving DecidableEq, Repr

/-! ## Content fingerprinter (`calculate_md5`) -/

/-- The state of hashlib's incremental md5 accumulator: the byte sequence
fed to it so far (the digest is a pure function of that sequence). -/
structure MD5State where
  fed : List Nat
deriving DecidableEq, Repr

/-- `hashlib.md5()`. -/
def md5_init : MD5State := ⟨[]⟩

/-- `hash_md5.update(chunk)`. -/
def MD5State.update (st : MD5State) (chunk : List Nat) : MD5State :=
  ⟨st.fed ++ chunk⟩

/-- The sequence of blocks produced by `iter(lambda: f.read(4096), b"")`:
successive 4096-byte reads until the read comes back empty. -/
def readChunks (l : List Nat) : List (List Nat) :=
  if h : l = [] then []
  else l.take 4096 :: readChunks (l.drop 4096)
termination_by l.length
decreasing_by
  have hl : 0 < l.length := List.length_pos.mpr h
  simp only [List.length_drop]
  omega

/-- `calculate_md5` (src/main.py:26-31): feed the file's content through
the accumulator in 4096-byte blocks and return the final hex digest. -/
def calculate_md5 (hexdigest : List Nat → String) (content : List Nat) : String :=
  hexdigest ((readChunks content).foldl MD5State.update md5_init).fed

/-- Characters allowed in a lowercase hexadecimal digest. -/
def lowerHexOnly (s : String) : Bool :=
  s.toList.all (fun c => ("0123456789abcdef".toList).contains c)

/-! ## Remote store operations -/

/-- `service.files().list(q=..)`: a read-only query returning the matching
entries and the (unchanged) store. -/
def drive_list (d : Drive) (q : DriveEntry → Bool) : List DriveEntry × Drive :=
  (d.entries.filter q, d)

/-- `service.files().create(..)`: append a new entry under a freshly
assigned id. -/
def drive_create (d : Drive) (nm : String) (pid : FileId) (isFolder : Bool)
    (md5 : Option String) : FileId × Drive :=
  (FileId.gen d.nextId,
   ⟨d.entries ++ [⟨FileId.gen d.nextId, nm, pid, isFolder, md5⟩], d.nextId + 1⟩)

/-- The query of `file_exists`: `'folder_id' in parents and
name='file_name' and mimeType!='application/vnd.google-apps.folder'`. -/
def fileQuery (pid : FileId) (nm : String) (e : DriveEntry) : Bool :=
  decide (e.parent = pid ∧ e.name = nm ∧ e.isFolder = false)

/-- The query of `get_or_create_folder`: `'parent_id' in parents and
name='folder_name' and mimeType='application/vnd.google-apps.folder'`. -/
def folderQuery (pid : FileId) (nm : String) (e : DriveEntry) : Bool :=
  decide (e.parent = pid ∧ e.name = nm ∧ e.isFolder = true)

/-- `file_exists` (src/main.py:35-44): list the non-folder entries with
the given name under the parent and report whether any of them carries the
given md5 checksum. -/
def file_exists (d : Drive) (folder_id : FileId) (file_name : String)
    (file_md5 : String) : Bool :=
  let items := (drive_list d (fileQuery folder_id file_name)).1
  items.any (fun item => decide (item.md5Checksum = some file_md5))

/-- `get_or_create_folder` (src/main.py:48-66): return the id of the first
listed folder with that name under the parent, or create one. -/
def get_or_create_folder (d : Drive) (folder_name : String) (parent_id : FileId) :
    FileId × Drive :=
  match (drive_list d (folderQuery parent_id folder_name)).1 with
  | item :: _ => (item.id, d)
  | [] => drive_create d folder_name parent_id true none

/-- `upload_file` (src/main.py:70-93): skip when `file_exists` reports a
content match, otherwise create a new remote file (whose provider-computed
md5Checksum is the digest of the uploaded bytes) and report `true`. -/
def upload_file (hexdigest : List Nat → String) (d : Drive) (file_name : String)
    (content : List Nat) (folder_id : FileId) : Bool × Drive :=
  let file_md5 := calculate_md5 hexdigest content
  if file_exists d folder_id file_name file_md5 then
    (false, d)
  else
    (true, (drive_create d file_name folder_id false (some (hexdigest content))).2)

/-! ## Tree synchronizer -/

/-- `count_files` (src/main.py:97-105): recursively count regular files;
entries that are neither directories nor regular files contribute nothing. -/
def count_files : List Entry → Nat
  | [] => 0
  | Entry.dir _ cs :: rest => count_files cs + count_files rest
  | Entry.file _ _ :: rest => 1 + count_files rest
  | Entry.other _ :: rest => count_files rest
termination_by l => sizeOf l
decreasing_by all_goals (simp; try omega)

/-- The body of `upload_directory` (src/main.py:109-128): walk the listing
in order; a directory resolves its remote folder and recurses (the
recursive call opens its own progress bar, returned in the bar list); a
file is uploaded or skipped and either way advances the current bar by
one; anything else is ignored.  Returns the final store, the number of
advances of the current invocation's bar, and the bars opened by the
recursive calls. -/
def upload_items (hexdigest : List Nat → String) (d : Drive) (items : List Entry)
    (parent_id : FileId) : Drive × Nat × List Bar :=
  match items with
  | [] => (d, 0, [])
  | Entry.dir nm cs :: rest =>
      let rf := get_or_create_folder d nm parent_id
      let sub := upload_items hexdigest rf.2 cs rf.1
      let r := upload_items hexdigest sub.1 rest parent_id
      (r.1, r.2.1, (Bar.mk (count_files cs) sub.2.1 :: sub.2.2) ++ r.2.2)
  | Entry.file nm content :: rest =>
      let rf := upload_file hexdigest d nm content parent_id
      let inc := if rf.1 then 1 else 1
      let r := upload_items hexdigest rf.2 rest parent_id
      (r.1, inc + r.2.1, r.2.2)
  | Entry.other _ :: rest => upload_items hexdigest d rest parent_id
termination_by sizeOf items
decreasing_by all_goals (simp; try omega)

/-- `upload_directory` (src/main.py:109-128): size a fresh tqdm bar with
the recursive `count_files` total, then process the listing; the bar for
this invocation is returned first, followed by the bars of the nested
invocations. -/
def upload_directory (hexdigest : List Nat → String) (d : Drive)
    (children : List Entry) (parent_id : FileId) : Drive × List Bar :=
  let r := upload_items hexdigest d children parent_id
  (r.1, Bar.mk (count_files children) r.2.1 :: r.2.2)

/-- Python `s.split(sep)` on a character list. -/
def split_on (sep : Char) : List Char → List (List Char)
  | [] => [[]]
  | c :: rest =>
    match split_on sep rest with
    | [] => [[]]
    | g :: gs => if c = sep then [] :: g :: gs else (c :: g) :: gs

/-- `gdrive_folder_url.split('/')[-1]` (src/main.py:133). -/
def extract_folder_id (url : List Char) : List Char :=
  (split_on (Char.ofNat 47) url).getLastD []

/-- `upload_to_gdrive_from_local_dir` (src/main.py:131-138): extract the
target folder id from the URL's trailing path segment and upload the tree
under it (authentication is the provider's concern and not modelled). -/
def upload_to_gdrive_from_local_dir (hexdigest : List Nat → String) (d : Drive)
    (tree : List Entry) (gdrive_folder_url : List Char) : Drive × List Bar :=
  let folder_id := extract_folder_id gdrive_folder_url
  upload_directory hexdigest d tree (FileId.ext (String.mk folder_id))

/-- `list_files_in_folder` (src/main.py:141-152): list the immediate
children of a folder and report their names and ids. -/
def list_files_in_folder (d : Drive) (folder_id : FileId) :
    List (String × FileId) × Drive :=
  let r := drive_list d (fun e => decide (e.parent = folder_id))
  (r.1.map (fun item => (item.name, item.id)), r.2)

/-- The number of regular files directly in one listing (each of them
advances the listing's own progress bar by one). -/
def countFilesShallow : List Entry → Nat
  | [] => 0
  | Entry.file _ _ :: rest => 1 + countFilesShallow rest
  | Entry.dir _ _ :: rest => countFilesShallow rest
  | Entry.other _ :: rest => countFilesShallow rest

/-- The folder entries of the store matching `get_or_create_folder`'s
query, in listing order. -/
def folderMatches (d : Drive) (pid : FileId) (nm : String) : List DriveEntry :=
  d.entries.filter (folderQuery pid nm)

/-- The local tree is fully mirrored in the store `d` under `pid`: every
file's existence check matches, every directory has a remote folder (the
one `get_or_create_folder` would pick, i.e. the first listed match) whose
subtree is mirrored in turn. -/
def Synced (hexdigest : List Nat → String) (d : Drive) : List Entry → FileId → Prop
  | [], _ => True
  | Entry.file nm c :: rest, pid =>
      file_exists d pid nm (hexdigest c) = true ∧ Synced hexdigest d rest pid
  | Entry.dir nm cs :: rest, pid =>
      (∃ e, (folderMatches d pid nm).head? = some e ∧ Synced hexdigest d cs e.id) ∧
      Synced hexdigest d rest pid
  | Entry.other _ :: rest, pid => Synced hexdigest d rest pid
termination_by l _ => sizeOf l
decreasing_by all_goals (simp; try omega)

/-! ## Failure-injecting variants

Remote calls are numbered in the order they are issued; `failAt = some j`
makes the j-th call raise.  The code has no handler anywhere, so each
translated function simply propagates `Except.error`. -/

/-- One remote API call: raises iff its index is the scheduled one,
otherwise returns the next call index. -/
def remote_call (failAt : Option Nat) (k : Nat) : Except Nat Nat :=
  match failAt with
  | some j => if k = j then Except.error j else Except.ok (k + 1)
  | none => Except.ok (k + 1)

/-- `file_exists` with its single `files().list` call numbered. -/
def file_existsE (failAt : Option Nat) (d : Drive) (pid : FileId)
    (nm md5 : String) (k : Nat) : Except Nat (Bool × Nat) :=
  match remote_call failAt k with
  | Except.error j => Except.error j
  | Except.ok k1 => Except.ok (file_exists d pid nm md5, k1)

/-- `get_or_create_folder` with its `list` call and (when needed) its
`create` call numbered. -/
def get_or_create_folderE (failAt : Option Nat) (d : Drive) (nm : String)
    (pid : FileId) (k : Nat) : Except Nat (FileId × Drive × Nat) :=
  match remote_call failAt k with
  | Except.error j => Except.error j
  | Except.ok k1 =>
    match (drive_list d (folderQuery pid nm)).1 with
    | item :: _ => Except.ok (item.id, d, k1)
    | [] =>
      match remote_call failAt k1 with
      | Except.error j => Except.error j
      | Except.ok k2 =>
        Except.ok ((drive_create d nm pid true none).1,
                   (drive_create d nm pid true none).2, k2)

/-- `upload_file` with its `list` call and (when uploading) its chunked
`create`/upload call numbered. -/
def upload_fileE (failAt : Option Nat) (hexdigest : List Nat → String)
    (d : Drive) (nm : String) (content : List Nat) (pid : FileId) (k : Nat) :
    Except Nat (Bool × Drive × Nat) :=
  match file_existsE failAt d pid nm (calculate_md5 hexdigest content) k with
  | Except.error j => Except.error j
  | Except.ok (true, k1) => Except.ok (false, d, k1)
  | Except.ok (false, k1) =>
    match remote_call failAt k1 with
    | Except.error j => Except.error j
    | Except.ok k2 =>
      Except.ok (true, (drive_create d nm pid false (some (hexdigest content))).2, k2)

/-- The traversal of `upload_directory` with every remote call numbered;
no branch catches an error, so any raised error short-circuits the whole
recursion, discarding all in-process state. -/
def upload_itemsE (failAt : Option Nat) (hexdigest : List Nat → String)
    (d : Drive) (items : List Entry) (pid : FileId) (k : Nat) :
    Except Nat (Drive × Nat) :=
  match items with
  | [] => Except.ok (d, k)
  | Entry.dir nm cs :: rest =>
    match get_or_create_folderE failAt d nm pid k with
    | Except.error j => Except.error j
    | Except.ok (fid, d1, k1) =>
      match upload_itemsE failAt hexdigest d1 cs fid k1 with
      | Except.error j => Except.error j
      | Except.ok (d2, k2) => upload_itemsE failAt hexdigest d2 rest pid k2
  | Entry.file nm content :: rest =>
    match upload_fileE failAt hexdigest d nm content pid k with
    | Except.error j => Except.error j
    | Except.ok (_, d1, k1) => upload_itemsE failAt hexdigest d1 rest pid k1
  | Entry.other _ :: rest => upload_itemsE failAt hexdigest d rest pid k
termination_by sizeOf items
decreasing_by all_goals (simp; try omega)

/-- The local tree root/(a.txt, sub/b.txt) from the spec's scenario. -/
def exampleTree : List Entry :=
  [Entry.file "a.txt" [97], Entry.dir "sub" [Entry.file "b.txt" [98]]]

/-! ## Hash accumulator lemmas -/

theorem readChunks_foldl : ∀ (l : List Nat) (st : MD5State),
    ((readChunks l).foldl MD5State.update st).fed = st.fed ++ l
  | l, st => by
    rw [readChunks]
    by_cases h : l = []
    · simp [h]
    · rw [dif_neg h, List.foldl_cons,
        readChunks_foldl (l.drop 4096) (st.update (l.take 4096))]
      simp [MD5State.update]
termination_by l => l.length
decreasing_by
  have hl : 0 < l.length := List.length_pos.mpr h
  simp only [List.length_drop]
  omega

theorem calculate_md5_eq (hexdigest : List Nat → String) (content : List Nat) :
    calculate_md5 hexdigest content = hexdigest content := by
  unfold calculate_md5
  rw [readChunks_foldl]
  simp [md5_init]

/-! ## URL splitting lemmas -/

theorem split_on_ne_nil (sep : Char) (l : List Char) : split_on sep l ≠ [] := by
  cases l with
  | nil => simp [split_on]
  | cons c rest =>
    simp only [split_on]
    cases h : split_on sep rest with
    | nil => simp
    | cons g gs => by_cases hc : c = sep <;> simp [hc]

theorem split_on_no_sep (sep : Char) (l : List Char) (h : sep ∉ l) :
    split_on sep l = [l] := by
  induction l with
  | nil => rfl
  | cons c rest ih =>
    have hc : ¬(c = sep) := fun hcs => h (hcs ▸ List.mem_cons_self c rest)
    have hrest : sep ∉ rest := fun hm => h (List.mem_cons_of_mem _ hm)
    simp [split_on, ih hrest, hc]

theorem split_on_length_two (sep : Char) : ∀ (as bs : List Char),
    2 ≤ (split_on sep (as ++ sep :: bs)).length := by
  intro as bs
  induction as with
  | nil =>
    simp only [List.nil_append, split_on]
    cases h : split_on sep bs with
    | nil => exact absurd h (split_on_ne_nil sep bs)
    | cons g gs => simp
  | cons c as' ih =>
    simp only [List.cons_append, split_on]
    cases h : split_on sep (as' ++ sep :: bs) with
    | nil => rw [h] at ih; simp at ih
    | cons g gs =>
      rw [h] at ih
      by_cases hc : c = sep <;> simp [hc] <;> simp at ih <;> omega

theorem extract_folder_id_spec : ∀ (as bs : List Char), Char.ofNat 47 ∉ bs →
    extract_folder_id (as ++ Char.ofNat 47 :: bs) = bs := by
  intro as bs h
  induction as with
  | nil =>
    simp only [List.nil_append, extract_folder_id, split_on,
      split_on_no_sep _ _ h, if_pos rfl]
    simp [List.getLastD_cons]
  | cons c as' ih =>
    have h2 := split_on_length_two (Char.ofNat 47) as' bs
    simp only [extract_folder_id] at ih ⊢
    simp only [List.cons_append, split_on]
    cases hr : split_on (Char.ofNat 47) (as' ++ Char.ofNat 47 :: bs) with
    | nil => rw [hr] at h2; simp at h2
    | cons g gs =>
      rw [hr] at h2 ih
      cases gs with
      | nil => simp at h2
      | cons g2 t =>
        by_cases hc : c = Char.ofNat 47 <;>
          simp only [hc, if_pos rfl, if_neg, List.getLastD_cons] <;>
          simp [List.getLastD_cons] at ih <;>
          exact ih

/-! ## Store-extension lemmas -/

theorem get_or_create_folder_entries (d : Drive) (nm : String) (pid : FileId) :
    ∃ ex, (get_or_create_folder d nm pid).2.entries = d.entries ++ ex := by
  rw [get_or_create_folder]
  cases h : (drive_list d (folderQuery pid nm)).1 with
  | cons item t => exact ⟨[], by simp⟩
  | nil => exact ⟨_, rfl⟩

theorem upload_file_entries (hx : List Nat → String) (d : Drive) (nm : String)
    (c : List Nat) (pid : FileId) :
    ∃ ex, (upload_file hx d nm c pid).2.entries = d.entries ++ ex := by
  rw [upload_file]
  cases h : file_exists d pid nm (calculate_md5 hx c) with
  | true => exact ⟨[], by simp⟩
  | false =>
    refine ⟨[DriveEntry.mk (FileId.gen d.nextId) nm pid false (some (hx c))], ?_⟩
    simp [h, drive_create]

theorem upload_items_entries : ∀ (hx : List Nat → String) (items : List Entry)
    (d : Drive) (pid : FileId),
    ∃ ex, (upload_items hx d items pid).1.entries = d.entries ++ ex
  | hx, [], d, pid => ⟨[], by simp [upload_items]⟩
  | hx, Entry.dir nm cs :: rest, d, pid => by
    obtain ⟨e1, h1⟩ := get_or_create_folder_entries d nm pid
    obtain ⟨e2, h2⟩ := upload_items_entries hx cs (get_or_create_folder d nm pid).2
      (get_or_create_folder d nm pid).1
    obtain ⟨e3, h3⟩ := upload_items_entries hx rest
      (upload_items hx (get_or_create_folder d nm pid).2 cs
        (get_or_create_folder d nm pid).1).1 pid
    refine ⟨e1 ++ (e2 ++ e3), ?_⟩
    simp only [upload_items]
    rw [h3, h2, h1]
    simp
  | hx, Entry.file nm c :: rest, d, pid => by
    obtain ⟨e1, h1⟩ := upload_file_entries hx d nm c pid
    obtain ⟨e2, h2⟩ := upload_items_entries hx rest (upload_file hx d nm c pid).2 pid
    refine ⟨e1 ++ e2, ?_⟩
    simp only [upload_items]
    rw [h2, h1]
    simp
  | hx, Entry.other nm :: rest, d, pid => by
    obtain ⟨e1, h1⟩ := upload_items_entries hx rest d pid
    exact ⟨e1, by simp only [upload_items]; exact h1⟩
termination_by hx items => sizeOf items
decreasing_by all_goals (simp; try omega)

/-! ## Monotonicity of the synchronized-state predicate -/

theorem file_exists_mono (d d' : Drive) (ex : List DriveEntry)
    (hd : d'.entries = d.entries ++ ex) (pid : FileId) (nm md5 : String)
    (h : file_exists d pid nm md5 = true) : file_exists d' pid nm md5 = true := by
  unfold file_exists drive_list at h ⊢
  simp only at h ⊢
  rw [hd, List.filter_append, List.any_append, h]
  rfl

theorem folderMatches_mono_head (d d' : Drive) (ex : List DriveEntry)
    (hd : d'.entries = d.entries ++ ex) (pid : FileId) (nm : String)
    (e : DriveEntry) (h : (folderMatches d pid nm).head? = some e) :
    (folderMatches d' pid nm).head? = some e := by
  unfold folderMatches at h ⊢
  rw [hd, List.filter_append]
  cases hf : d.entries.filter (folderQuery pid nm) with
  | nil => rw [hf] at h; simp at h
  | cons a t => rw [hf] at h; simp at h; simp [h]

theorem synced_mono : ∀ (hx : List Nat → String) (items : List Entry)
    (d d' : Drive) (ex : List DriveEntry), d'.entries = d.entries ++ ex →
    ∀ (pid : FileId), Synced hx d items pid → Synced hx d' items pid
  | hx, [], d, d', ex, hd, pid, _ => by simp [Synced]
  | hx, Entry.file nm c :: rest, d, d', ex, hd, pid, hs => by
    rw [Synced] at hs ⊢
    exact ⟨file_exists_mono d d' ex hd pid nm _ hs.1,
      synced_mono hx rest d d' ex hd pid hs.2⟩
  | hx, Entry.dir nm cs :: rest, d, d', ex, hd, pid, hs => by
    rw [Synced] at hs ⊢
    obtain ⟨⟨e, he, hcs⟩, hrest⟩ := hs
    exact ⟨⟨e, folderMatches_mono_head d d' ex hd pid nm e he,
      synced_mono hx cs d d' ex hd e.id hcs⟩,
      synced_mono hx rest d d' ex hd pid hrest⟩
  | hx, Entry.other nm :: rest, d, d', ex, hd, pid, hs => by
    rw [Synced] at hs ⊢
    exact synced_mono hx rest d d' ex hd pid hs
termination_by hx items => sizeOf items
decreasing_by all_goals (simp; try omega)

/-! ## A run establishes the synchronized state -/

theorem upload_file_exists_after (hx : List Nat → String) (d : Drive)
    (nm : String) (c : List Nat) (pid : FileId) :
    file_exists (upload_file hx d nm c pid).2 pid nm (hx c) = true := by
  rw [upload_file]
  cases h : file_exists d pid nm (calculate_md5 hx c) with
  | true =>
    simp only [h, if_true]
    rw [calculate_md5_eq] at h
    exact h
  | false =>
    simp only [h, Bool.false_eq_true, if_false]
    unfold file_exists drive_list drive_create
    simp [List.filter_append, List.any_append, fileQuery]

theorem get_or_create_folder_head (d : Drive) (nm : String) (pid : FileId) :
    ∃ e, (folderMatches (get_or_create_folder d nm pid).2 pid nm).head? = some e ∧
      e.id = (get_or_create_folder d nm pid).1 := by
  rw [get_or_create_folder]
  cases h : (drive_list d (folderQuery pid nm)).1 with
  | cons item t =>
    refine ⟨item, ?_, rfl⟩
    unfold folderMatches
    unfold drive_list at h
    simp only at h
    simp [h]
  | nil =>
    refine ⟨⟨FileId.gen d.nextId, nm, pid, true, none⟩, ?_, rfl⟩
    unfold folderMatches drive_create
    unfold drive_list at h
    simp only at h
    simp [List.filter_append, h, folderQuery]

theorem get_or_create_folder_of_head (d : Drive) (nm : String) (pid : FileId)
    (e : DriveEntry) (he : (folderMatches d pid nm).head? = some e) :
    get_or_create_folder d nm pid = (e.id, d) := by
  rw [get_or_create_folder]
  unfold folderMatches at he
  cases h : (drive_list d (folderQuery pid nm)).1 with
  | nil =>
    unfold drive_list at h
    simp only at h
    rw [h] at he
    simp at he
  | cons item t =>
    unfold drive_list at h
    simp only at h
    rw [h] at he
    simp at he
    subst he
    rfl

theorem upload_items_syncs : ∀ (hx : List Nat → String) (items : List Entry)
    (d : Drive) (pid : FileId),
    Synced hx (upload_items hx d items pid).1 items pid
  | hx, [], d, pid => by simp [upload_items, Synced]
  | hx, Entry.file nm c :: rest, d, pid => by
    have h1 := upload_file_exists_after hx d nm c pid
    have hrest := upload_items_syncs hx rest (upload_file hx d nm c pid).2 pid
    obtain ⟨ex, hex⟩ := upload_items_entries hx rest (upload_file hx d nm c pid).2 pid
    rw [Synced]
    simp only [upload_items]
    exact ⟨file_exists_mono _ _ ex hex pid nm _ h1, hrest⟩
  | hx, Entry.dir nm cs :: rest, d, pid => by
    obtain ⟨e, he, heid⟩ := get_or_create_folder_head d nm pid
    have hcs := upload_items_syncs hx cs (get_or_create_folder d nm pid).2
      (get_or_create_folder d nm pid).1
    have hrest := upload_items_syncs hx rest
      (upload_items hx (get_or_create_folder d nm pid).2 cs
        (get_or_create_folder d nm pid).1).1 pid
    obtain ⟨e2, h2⟩ := upload_items_entries hx cs (get_or_create_folder d nm pid).2
      (get_or_create_folder d nm pid).1
    obtain ⟨e3, h3⟩ := upload_items_entries hx rest
      (upload_items hx (get_or_create_folder d nm pid).2 cs
        (get_or_create_folder d nm pid).1).1 pid
    rw [Synced]
    simp only [upload_items]
    constructor
    · refine ⟨e, ?_, ?_⟩
      · refine folderMatches_mono_head _ _ (e2 ++ e3) ?_ pid nm e he
        rw [h3, h2]
        simp
      · rw [heid]
        exact synced_mono hx cs _ _ e3 h3 _ hcs
    · exact hrest
  | hx, Entry.other nm :: rest, d, pid => by
    have hrest := upload_items_syncs hx rest d pid
    rw [Synced]
    simp only [upload_items]
    exact hrest
termination_by hx items => sizeOf items
decreasing_by all_goals (simp; try omega)

/-! ## A synchronized state makes the run a no-op -/

theorem upload_items_synced_noop : ∀ (hx : List Nat → String) (items : List Entry)
    (d : Drive) (pid : FileId), Synced hx d items pid →
    (upload_items hx d items pid).1 = d
  | hx, [], d, pid, _ => by simp [upload_items]
  | hx, Entry.file nm c :: rest, d, pid, hs => by
    rw [Synced] at hs
    have hup : upload_file hx d nm c pid = (false, d) := by
      rw [upload_file]
      rw [calculate_md5_eq hx c]
      simp [hs.1]
    simp only [upload_items, hup]
    exact upload_items_synced_noop hx rest d pid hs.2
  | hx, Entry.dir nm cs :: rest, d, pid, hs => by
    rw [Synced] at hs
    obtain ⟨⟨e, he, hcs⟩, hrest⟩ := hs
    have hg := get_or_create_folder_of_head d nm pid e he
    simp only [upload_items, hg]
    rw [upload_items_synced_noop hx cs d e.id hcs]
    exact upload_items_synced_noop hx rest d pid hrest
  | hx, Entry.other nm :: rest, d, pid, hs => by
    rw [Synced] at hs
    simp only [upload_items]
    exact upload_items_synced_noop hx rest d pid hs
termination_by hx items => sizeOf items
decreasing_by all_goals (simp; try omega)

/-! ## Claim theorems -/

/-- Claim C1 (refuted; code bug): the spec says the progress counter after
a full run equals the total number of local files (2 for the tree
root/(a.txt, sub/b.txt)).  In the code each recursive invocation opens its
own tqdm bar sized with the recursive `count_files` total but advances it
only for the files directly in its own listing: on the example tree the
root bar is sized 2 yet ends at 1, and the nested bar at 1 of 1, so no
indicator reaches 2. -/
theorem c1_progress_counter_mismatch :
    (upload_directory (fun _ => "ab") (Drive.mk [] 0) exampleTree
      (FileId.ext "root")).2 = [Bar.mk 2 1, Bar.mk 1 1] ∧
    (Bar.mk 2 1).advanced ≠ (Bar.mk 2 1).total := by
  constructor
  · simp [upload_directory, upload_items, upload_file, file_exists,
      get_or_create_folder, drive_list, drive_create, calculate_md5, readChunks,
      count_files, fileQuery, folderQuery, md5_init, MD5State.update, exampleTree]
  · decide

/-- Claim C2: `file_exists` returns true iff some non-folder entry under
the parent with the given name reports the given digest; when every
same-named entry differs in digest it returns false. -/
theorem c2_file_exists_spec (d : Drive) (pid : FileId) (nm md5 : String) :
    (file_exists d pid nm md5 = true ↔
      ∃ e ∈ d.entries, e.parent = pid ∧ e.name = nm ∧ e.isFolder = false ∧
        e.md5Checksum = some md5) ∧
    (file_exists d pid nm md5 = false ↔
      ∀ e ∈ d.entries, e.parent = pid → e.name = nm → e.isFolder = false →
        e.md5Checksum ≠ some md5) := by
  have h1 : file_exists d pid nm md5 = true ↔
      ∃ e ∈ d.entries, e.parent = pid ∧ e.name = nm ∧ e.isFolder = false ∧
        e.md5Checksum = some md5 := by
    unfold file_exists drive_list fileQuery
    simp only [List.any_eq_true, List.mem_filter, decide_eq_true_eq]
    tauto
  refine ⟨h1, ?_⟩
  constructor
  · intro hfalse e he hp hn hf hm
    have htrue : file_exists d pid nm md5 = true := h1.mpr ⟨e, he, hp, hn, hf, hm⟩
    rw [hfalse] at htrue
    exact Bool.false_ne_true htrue
  · intro hall
    cases hfe : file_exists d pid nm md5 with
    | false => rfl
    | true =>
      obtain ⟨e, he, hp, hn, hf, hm⟩ := h1.mp hfe
      exact absurd hm (hall e he hp hn hf)

/-- Witness for C2: in a store holding exactly one matching file the check
returns true. -/
theorem c2_file_exists_spec_witness :
    file_exists
      (Drive.mk [DriveEntry.mk (FileId.gen 0) "a" (FileId.ext "r") false (some "ab")] 1)
      (FileId.ext "r") "a" "ab" = true :=
  (c2_file_exists_spec
      (Drive.mk [DriveEntry.mk (FileId.gen 0) "a" (FileId.ext "r") false (some "ab")] 1)
      (FileId.ext "r") "a" "ab").1.mpr
    ⟨DriveEntry.mk (FileId.gen 0) "a" (FileId.ext "r") false (some "ab"),
      by decide, rfl, rfl, rfl, rfl⟩

/-- Claim C3: the folder resolver returns the id of an existing child
folder with that name under the parent when one exists, leaving the store
unchanged; otherwise it appends exactly one new folder with that name
under the parent and returns its newly assigned id. -/
theorem c3_get_or_create_folder_spec (d : Drive) (nm : String) (pid : FileId) :
    (∃ e ∈ d.entries, e.parent = pid ∧ e.name = nm ∧ e.isFolder = true ∧
        get_or_create_folder d nm pid = (e.id, d)) ∨
    ((∀ e ∈ d.entries, ¬(e.parent = pid ∧ e.name = nm ∧ e.isFolder = true)) ∧
      get_or_create_folder d nm pid =
        (FileId.gen d.nextId,
         Drive.mk (d.entries ++ [DriveEntry.mk (FileId.gen d.nextId) nm pid true none])
           (d.nextId + 1))) := by
  cases h : d.entries.filter (folderQuery pid nm) with
  | cons item t =>
    left
    have hmem : item ∈ d.entries.filter (folderQuery pid nm) := by
      rw [h]; exact List.mem_cons_self item t
    have hm := List.mem_filter.mp hmem
    have hprops := of_decide_eq_true hm.2
    refine ⟨item, hm.1, hprops.1, hprops.2.1, hprops.2.2, ?_⟩
    rw [get_or_create_folder, show (drive_list d (folderQuery pid nm)).1 = item :: t from h]
  | nil =>
    right
    constructor
    · intro e he hprops
      have : folderQuery pid nm e = true := decide_eq_true hprops
      have : e ∈ d.entries.filter (folderQuery pid nm) :=
        List.mem_filter.mpr ⟨he, this⟩
      rw [h] at this
      exact absurd this (List.not_mem_nil e)
    · rw [get_or_create_folder, show (drive_list d (folderQuery pid nm)).1 = [] from h]
      rfl

/-- Witness for C3: on an empty store the resolver creates the folder and
returns the newly assigned id. -/
theorem c3_get_or_create_folder_spec_witness :
    get_or_create_folder (Drive.mk [] 0) "sub" (FileId.ext "r") =
      (FileId.gen 0,
       Drive.mk [DriveEntry.mk (FileId.gen 0) "sub" (FileId.ext "r") true none] 1) := by
  rcases c3_get_or_create_folder_spec (Drive.mk [] 0) "sub" (FileId.ext "r") with
    ⟨e, he, _⟩ | ⟨_, hcreate⟩
  · exact absurd he (List.not_mem_nil e)
  · exact hcreate

/-- Claim C4: after a full run over any local tree, the store is fully
synchronized (every folder lookup finds the folder the run used and every
file's existence check matches), and running the synchronizer a second
time leaves the store exactly as it was: zero new files, zero duplicate
folders. -/
theorem c4_sync_idempotent (hx : List Nat → String) (d0 : Drive)
    (tree : List Entry) (pid : FileId) :
    Synced hx (upload_directory hx d0 tree pid).1 tree pid ∧
    (upload_directory hx (upload_directory hx d0 tree pid).1 tree pid).1 =
      (upload_directory hx d0 tree pid).1 := by
  constructor
  · exact upload_items_syncs hx tree d0 pid
  · exact upload_items_synced_noop hx tree _ pid (upload_items_syncs hx tree d0 pid)

/-- Claim C5: the fingerprinter streams the file in 4096-byte blocks
through the incremental accumulator and its digest equals the digest of
the full content computed in one pass; identical content gives identical
digests; and its output is a lowercase hex string whenever the underlying
digest primitive produces one. -/
theorem c5_calculate_md5_spec (hexdigest : List Nat → String) (content : List Nat) :
    calculate_md5 hexdigest content = hexdigest content ∧
    (∀ content2 : List Nat, content2 = content →
      calculate_md5 hexdigest content2 = calculate_md5 hexdigest content) ∧
    ((∀ s, lowerHexOnly (hexdigest s) = true) →
      lowerHexOnly (calculate_md5 hexdigest content) = true) := by
  refine ⟨calculate_md5_eq hexdigest content, ?_, ?_⟩
  · intro c2 h
    rw [h]
  · intro hlow
    rw [calculate_md5_eq]
    exact hlow content

/-- Witness for C5: a concrete digest primitive and content. -/
theorem c5_calculate_md5_spec_witness :
    calculate_md5 (fun _ => "ab") [1, 2, 3] = "ab" ∧
    lowerHexOnly (calculate_md5 (fun _ => "ab") [1, 2, 3]) = true :=
  ⟨(c5_calculate_md5_spec (fun _ => "ab") [1, 2, 3]).1,
   (c5_calculate_md5_spec (fun _ => "ab") [1, 2, 3]).2.2 (fun _ => by decide)⟩

/-- Claim C6: within each traversal of a listing, every regular file
advances that listing's progress bar by exactly one unit whether it was
skipped or uploaded, and directory (or other) entries never advance it:
the bar's advance count is exactly the number of direct regular files. -/
theorem c6_progress_per_file (hx : List Nat → String) (items : List Entry) :
    ∀ (d : Drive) (pid : FileId),
      (upload_items hx d items pid).2.1 = countFilesShallow items := by
  induction items with
  | nil => intro d pid; simp [upload_items, countFilesShallow]
  | cons i rest ih =>
    intro d pid
    cases i with
    | file nm c => simp [upload_items, countFilesShallow, ih]
    | dir nm cs => simp [upload_items, countFilesShallow, ih]
    | other nm => simp [upload_items, countFilesShallow, ih]

/-- Claim C7: the remote folder id used as the upload target is the
trailing path segment of the folder URL (the part after the last '/'). -/
theorem c7_trailing_segment (as bs : List Char) (h : Char.ofNat 47 ∉ bs)
    (hexdigest : List Nat → String) (d : Drive) (tree : List Entry) :
    extract_folder_id (as ++ Char.ofNat 47 :: bs) = bs ∧
    upload_to_gdrive_from_local_dir hexdigest d tree (as ++ Char.ofNat 47 :: bs) =
      upload_directory hexdigest d tree (FileId.ext (String.mk bs)) := by
  refine ⟨extract_folder_id_spec as bs h, ?_⟩
  unfold upload_to_gdrive_from_local_dir
  rw [extract_folder_id_spec as bs h]

/-- Witness for C7: a concrete URL. -/
theorem c7_trailing_segment_witness :
    extract_folder_id (['h', 't'] ++ Char.ofNat 47 :: ['x', 'y']) = ['x', 'y'] ∧
    upload_to_gdrive_from_local_dir (fun _ => "ab") (Drive.mk [] 0) []
        (['h', 't'] ++ Char.ofNat 47 :: ['x', 'y']) =
      upload_directory (fun _ => "ab") (Drive.mk [] 0) []
        (FileId.ext (String.mk ['x', 'y'])) :=
  c7_trailing_segment ['h', 't'] ['x', 'y'] (by decide) (fun _ => "ab")
    (Drive.mk [] 0) []

/-- Claim C9: listing a folder's contents issues only a list query and
returns the store unchanged; its output is exactly the (name, id) pairs of
the immediate children. -/
theorem c9_list_files_frame (d : Drive) (folder_id : FileId) :
    (list_files_in_folder d folder_id).2 = d ∧
    (list_files_in_folder d folder_id).1 =
      ((drive_list d (fun e => decide (e.parent = folder_id))).1).map
        (fun item => (item.name, item.id)) :=
  ⟨rfl, rfl⟩

/-- Claim C10: an entry that is neither a directory nor a regular file is
silently ignored everywhere: it contributes nothing to the pre-pass count
and its presence changes nothing about the traversal's store, progress, or
bars. -/
theorem c10_other_ignored (hx : List Nat → String) (nm : String)
    (xs ys : List Entry) :
    count_files (xs ++ Entry.other nm :: ys) = count_files (xs ++ ys) ∧
    ∀ (d : Drive) (pid : FileId),
      upload_items hx d (xs ++ Entry.other nm :: ys) pid =
        upload_items hx d (xs ++ ys) pid := by
  constructor
  · induction xs with
    | nil => simp [count_files]
    | cons x xs' ih =>
      cases x with
      | file n c => simp [count_files, ih]
      | dir n cs => simp [count_files, ih]
      | other n => simp [count_files, ih]
  · induction xs with
    | nil => intro d pid; simp [upload_items]
    | cons x xs' ih =>
      intro d pid
      cases x with
      | file n c => simp [upload_items, ih]
      | dir n cs => simp [upload_items, ih]
      | other n => simp [upload_items, ih]

/-! ## Error propagation lemmas -/

theorem remote_call_none (k : Nat) : remote_call none k = Except.ok (k + 1) := rfl

theorem remote_call_fail (k j : Nat) (h1 : k ≤ j) (h2 : j < k + 1) :
    remote_call (some j) k = Except.error j := by
  have hkj : k = j := by omega
  simp [remote_call, hkj]

theorem remote_call_pass (k j : Nat) (h : j < k ∨ k + 1 ≤ j) :
    remote_call (some j) k = Except.ok (k + 1) := by
  have hkj : ¬(k = j) := by omega
  simp [remote_call, hkj]

theorem file_existsE_spec (d : Drive) (pid : FileId) (nm md5 : String) (k : Nat) :
    file_existsE none d pid nm md5 k = Except.ok (file_exists d pid nm md5, k + 1) ∧
    (∀ j, k ≤ j → j < k + 1 → file_existsE (some j) d pid nm md5 k = Except.error j) ∧
    (∀ j, j < k ∨ k + 1 ≤ j → file_existsE (some j) d pid nm md5 k =
      file_existsE none d pid nm md5 k) := by
  refine ⟨rfl, ?_, ?_⟩
  · intro j h1 h2
    simp [file_existsE, remote_call_fail k j h1 h2]
  · intro j h
    simp [file_existsE, remote_call_pass k j h, remote_call_none]

theorem get_or_create_folderE_spec (d : Drive) (nm : String) (pid : FileId) (k : Nat) :
    ∃ k', get_or_create_folderE none d nm pid k =
        Except.ok ((get_or_create_folder d nm pid).1,
          (get_or_create_folder d nm pid).2, k') ∧
      k ≤ k' ∧
      (∀ j, k ≤ j → j < k' → get_or_create_folderE (some j) d nm pid k =
        Except.error j) ∧
      (∀ j, j < k ∨ k' ≤ j → get_or_create_folderE (some j) d nm pid k =
        get_or_create_folderE none d nm pid k) := by
  cases h : (drive_list d (folderQuery pid nm)).1 with
  | cons item t =>
    have hpure : get_or_create_folder d nm pid = (item.id, d) := by
      rw [get_or_create_folder, h]
    refine ⟨k + 1, ?_, by omega, ?_, ?_⟩
    · rw [hpure]
      simp only [get_or_create_folderE, remote_call_none, h]
    · intro j h1 h2
      simp only [get_or_create_folderE, remote_call_fail k j h1 h2]
    · intro j hj
      simp only [get_or_create_folderE, remote_call_pass k j hj, remote_call_none, h]
  | nil =>
    have hpure : get_or_create_folder d nm pid = drive_create d nm pid true none := by
      rw [get_or_create_folder, h]
    refine ⟨k + 2, ?_, by omega, ?_, ?_⟩
    · rw [hpure]
      simp only [get_or_create_folderE, remote_call_none, h]
    · intro j h1 h2
      by_cases hj : j < k + 1
      · simp only [get_or_create_folderE, remote_call_fail k j h1 hj]
      · have hj1 : k + 1 ≤ j := by omega
        simp only [get_or_create_folderE, remote_call_pass k j (Or.inr hj1), h,
          remote_call_fail (k + 1) j hj1 (by omega)]
    · intro j hj
      have hj1 : j < k ∨ k + 1 ≤ j := by omega
      have hj2 : j < k + 1 ∨ (k + 1) + 1 ≤ j := by omega
      simp only [get_or_create_folderE, remote_call_pass k j hj1, remote_call_none,
        h, remote_call_pass (k + 1) j hj2]

theorem upload_fileE_spec (hx : List Nat → String) (d : Drive) (nm : String)
    (c : List Nat) (pid : FileId) (k : Nat) :
    ∃ k', upload_fileE none hx d nm c pid k =
        Except.ok ((upload_file hx d nm c pid).1, (upload_file hx d nm c pid).2, k') ∧
      k ≤ k' ∧
      (∀ j, k ≤ j → j < k' → upload_fileE (some j) hx d nm c pid k =
        Except.error j) ∧
      (∀ j, j < k ∨ k' ≤ j → upload_fileE (some j) hx d nm c pid k =
        upload_fileE none hx d nm c pid k) := by
  cases hfe : file_exists d pid nm (calculate_md5 hx c) with
  | true =>
    have hpure : upload_file hx d nm c pid = (false, d) := by
      rw [upload_file]
      simp [hfe]
    refine ⟨k + 1, ?_, by omega, ?_, ?_⟩
    · rw [hpure]
      simp only [upload_fileE, file_existsE, remote_call_none, hfe]
    · intro j h1 h2
      simp only [upload_fileE, file_existsE, remote_call_fail k j h1 h2]
    · intro j hj
      simp only [upload_fileE, file_existsE, remote_call_pass k j hj,
        remote_call_none, hfe]
  | false =>
    have hpure : upload_file hx d nm c pid =
        (true, (drive_create d nm pid false (some (hx c))).2) := by
      rw [upload_file]
      simp [hfe]
    refine ⟨k + 2, ?_, by omega, ?_, ?_⟩
    · rw [hpure]
      simp only [upload_fileE, file_existsE, remote_call_none, hfe]
    · intro j h1 h2
      by_cases hj : j < k + 1
      · simp only [upload_fileE, file_existsE, remote_call_fail k j h1 hj]
      · have hj1 : k + 1 ≤ j := by omega
        simp only [upload_fileE, file_existsE, remote_call_pass k j (Or.inr hj1),
          hfe, remote_call_fail (k + 1) j hj1 (by omega)]
    · intro j hj
      have hj1 : j < k ∨ k + 1 ≤ j := by omega
      have hj2 : j < k + 1 ∨ (k + 1) + 1 ≤ j := by omega
      simp only [upload_fileE, file_existsE, remote_call_pass k j hj1,
        remote_call_none, hfe, remote_call_pass (k + 1) j hj2]

theorem upload_itemsE_spec : ∀ (hx : List Nat → String) (items : List Entry)
    (d : Drive) (pid : FileId) (k : Nat),
    ∃ k', upload_itemsE none hx d items pid k =
        Except.ok ((upload_items hx d items pid).1, k') ∧
      k ≤ k' ∧
      (∀ j, k ≤ j → j < k' → upload_itemsE (some j) hx d items pid k =
        Except.error j) ∧
      (∀ j, j < k ∨ k' ≤ j → upload_itemsE (some j) hx d items pid k =
        upload_itemsE none hx d items pid k)
  | hx, [], d, pid, k => by
    refine ⟨k, ?_, le_refl k, ?_, ?_⟩
    · simp [upload_itemsE, upload_items]
    · intro j h1 h2
      omega
    · intro j hj
      simp [upload_itemsE]
  | hx, Entry.dir nm cs :: rest, d, pid, k => by
    obtain ⟨k1, hgok, hk1, hgfail, hgpass⟩ := get_or_create_folderE_spec d nm pid k
    obtain ⟨k2, hsok, hk2, hsfail, hspass⟩ := upload_itemsE_spec hx cs
      (get_or_create_folder d nm pid).2 (get_or_create_folder d nm pid).1 k1
    obtain ⟨k3, hrok, hk3, hrfail, hrpass⟩ := upload_itemsE_spec hx rest
      (upload_items hx (get_or_create_folder d nm pid).2 cs
        (get_or_create_folder d nm pid).1).1 pid k2
    refine ⟨k3, ?_, by omega, ?_, ?_⟩
    · simp only [upload_itemsE, hgok, hsok, hrok, upload_items]
    · intro j h1 h2
      by_cases hj1 : j < k1
      · simp only [upload_itemsE, hgfail j h1 hj1]
      · by_cases hj2 : j < k2
        · have hg := hgpass j (Or.inr (by omega))
          simp only [upload_itemsE, hg, hgok, hsfail j (by omega) hj2]
        · have hg := hgpass j (Or.inr (by omega))
          have hs := hspass j (Or.inr (by omega))
          simp only [upload_itemsE, hg, hgok, hs, hsok, hrfail j (by omega) h2]
    · intro j hj
      have hg := hgpass j (by omega)
      have hs := hspass j (by omega)
      have hr := hrpass j (by omega)
      simp only [upload_itemsE, hg, hgok, hs, hsok, hr]
  | hx, Entry.file nm c :: rest, d, pid, k => by
    obtain ⟨k1, hfok, hk1, hffail, hfpass⟩ := upload_fileE_spec hx d nm c pid k
    obtain ⟨k2, hrok, hk2, hrfail, hrpass⟩ := upload_itemsE_spec hx rest
      (upload_file hx d nm c pid).2 pid k1
    refine ⟨k2, ?_, by omega, ?_, ?_⟩
    · simp only [upload_itemsE, hfok, hrok, upload_items]
    · intro j h1 h2
      by_cases hj1 : j < k1
      · simp only [upload_itemsE, hffail j h1 hj1]
      · have hf := hfpass j (Or.inr (by omega))
        simp only [upload_itemsE, hf, hfok, hrfail j (by omega) h2]
    · intro j hj
      have hf := hfpass j (by omega)
      have hr := hrpass j (by omega)
      simp only [upload_itemsE, hf, hfok, hr]
  | hx, Entry.other nm :: rest, d, pid, k => by
    obtain ⟨k', hok, hk, hfail, hpass⟩ := upload_itemsE_spec hx rest d pid k
    refine ⟨k', ?_, hk, ?_, ?_⟩
    · simp only [upload_itemsE, hok, upload_items]
    · intro j h1 h2
      simp only [upload_itemsE, hfail j h1 h2]
    · intro j hj
      simp only [upload_itemsE, hpass j hj]
termination_by hx items => sizeOf items
decreasing_by all_goals (simp; try omega)

/-- Claim C8: no remote failure is caught anywhere in the synchronizer.
If the failure-free run of the traversal performs calls k..k'-1, then
scheduling a failure at any one of those calls makes the entire run abort
with exactly that error: the result is `Except.error j`, which carries no
store and no progress state (nothing partial is persisted).  The
failure-free run itself computes exactly the pure synchronizer's store. -/
theorem c8_error_propagation (hx : List Nat → String) (d : Drive)
    (items : List Entry) (pid : FileId) (k : Nat) (d' : Drive) (k' : Nat)
    (hok : upload_itemsE none hx d items pid k = Except.ok (d', k')) :
    d' = (upload_items hx d items pid).1 ∧
    ∀ j, k ≤ j → j < k' → upload_itemsE (some j) hx d items pid k =
      Except.error j := by
  obtain ⟨k2, hok2, _, hfail, _⟩ := upload_itemsE_spec hx items d pid k
  rw [hok2] at hok
  have hp : (upload_items hx d items pid).1 = d' ∧ k2 = k' := by
    have := hok
    simp only [Except.ok.injEq, Prod.mk.injEq] at this
    exact this
  refine ⟨hp.1.symm, ?_⟩
  intro j hj1 hj2
  exact hfail j hj1 (by omega)

/-- Witness for C8: on a one-file tree the failure-free run makes calls 0
and 1; failing call 1 (the chunked upload) aborts the whole run. -/
theorem c8_error_propagation_witness :
    upload_itemsE (some 1) (fun _ => "ab") (Drive.mk [] 0) [Entry.file "a" [1]]
      (FileId.ext "r") 0 = Except.error 1 := by
  have hok : upload_itemsE none (fun _ => "ab") (Drive.mk [] 0)
      [Entry.file "a" [1]] (FileId.ext "r") 0 =
      Except.ok (Drive.mk
        [DriveEntry.mk (FileId.gen 0) "a" (FileId.ext "r") false (some "ab")] 1,
        2) := by
    simp [upload_itemsE, upload_fileE, file_existsE, remote_call, file_exists,
      drive_list, drive_create, calculate_md5, readChunks, fileQuery, md5_init,
      MD5State.update]
  exact (c8_error_propagation (fun _ => "ab") (Drive.mk [] 0) [Entry.file "a" [1]]
    (FileId.ext "r") 0 _ 2 hok).2 1 (by omega) (by omega)
